import Mathlib

/-!
Verification of the IP-rule reconciliation engine
(`Translytical/AzFunc.py`): the AddressSpec parser `parse_ip_range`, the
range-rule reconciler `manage_sql_firewall`, the list-rule reconciler
`manage_storage_firewall` and the HTTP router `HttpTriggerIPFunc` are
embedded as pure Lean functions; remote HTTP responses are supplied by an
oracle environment and outbound calls are recorded in a trace.  Python
exceptions are modelled as `Except.error`; the Python `ipaddress` library
is modelled in its IPv4 dotted-quad / numeric-prefix fragment, the one the
specification and the claims are about.  Python string primitives are
modelled over the character list of the string so that every definition
evaluates inside the kernel.
-/

set_option autoImplicit false

deriving instance DecidableEq for Except

/-- A raised Python exception, as observed through the function boundary
(the code never catches specific messages, only exception classes). -/
inductive PyErr where
  | valueError : PyErr
  | typeError : PyErr
deriving DecidableEq

/-- Python whitespace, the class stripped by `str.strip()`. -/
def isPySpace (c : Char) : Bool :=
  c = ' ' || c = '\t' || c = '\n' || c = '\x0d' || c = '\x0b' || c = '\x0c'

/-- Python `s.strip()`. -/
def pyStrip (s : String) : String :=
  String.mk (((s.toList.dropWhile isPySpace).reverse.dropWhile isPySpace).reverse)

/-- Python `c in s` for a single-character needle. -/
def containsChar (s : String) (c : Char) : Bool :=
  s.toList.contains c

/-- Python `s.split(sep)` for a single-character separator, accumulator
form. -/
def splitCharAux (c : Char) : List Char → List Char → List String
  | [], acc => [String.mk acc.reverse]
  | x :: xs, acc =>
    if x = c then String.mk acc.reverse :: splitCharAux c xs []
    else splitCharAux c xs (x :: acc)

/-- Python `s.split(sep)` for a single-character separator. -/
def splitChar (s : String) (c : Char) : List String :=
  splitCharAux c s.toList []

/-- Python `s.replace(a, b)` for single-character arguments. -/
def replaceChar (s : String) (a b : Char) : String :=
  String.mk (s.toList.map (fun c => if c = a then b else c))

/-- Python `s.lower()`. -/
def pyLower (s : String) : String :=
  String.mk (s.toList.map Char.toLower)

/-- Largest IPv4 address, `255.255.255.255`. -/
def ipv4Max : Nat := 2 ^ 32 - 1

/-- Decimal value of a string of digits (models Python `int` on digit
strings). -/
def decimalVal (s : String) : Nat :=
  s.toList.foldl (fun n c => n * 10 + (c.toNat - 48)) 0

/-- One octet of a dotted quad, per Python `ipaddress._parse_octet`:
non-empty, at most 3 characters, all ASCII digits, no leading zero, value
at most 255. -/
def parseOctet (s : String) : Option Nat :=
  if s.toList.length = 0 then none
  else if s.toList.length > 3 then none
  else if !(s.toList.all (fun c => c.isDigit)) then none
  else if s.toList.length > 1 && s.toList.headD ' ' = '0' then none
  else
    let v := decimalVal s
    if v ≤ 255 then some v else none

/-- Python `ipaddress.IPv4Address` on a string: exactly four
dot-separated octets. -/
def ipv4FromString (s : String) : Option Nat :=
  match splitChar s '.' with
  | [a, b, c, d] => do
    let oa ← parseOctet a
    let ob ← parseOctet b
    let oc ← parseOctet c
    let od ← parseOctet d
    pure (((oa * 256 + ob) * 256 + oc) * 256 + od)
  | _ => none

/-- Python `str(IPv4Address(n))`: the dotted-quad rendering. -/
def ipToString (n : Nat) : String :=
  toString (n / 16777216 % 256) ++ "." ++ toString (n / 65536 % 256) ++ "."
    ++ toString (n / 256 % 256) ++ "." ++ toString (n % 256)

/-- A CIDR mask length, per Python `ipaddress._prefix_from_prefix_string`:
all digits and at most 32. -/
def maskBitsOfString (s : String) : Option Nat :=
  if s.toList.length = 0 then none
  else if !(s.toList.all (fun c => c.isDigit)) then none
  else
    let v := decimalVal s
    if v ≤ 32 then some v else none

/-- Python `ipaddress.ip_network(s, strict=False)` reduced to the pair
(network address, broadcast address); host bits are masked off because
`strict` is `False`.  Modelled in its IPv4 dotted-quad / numeric-prefix
fragment. -/
def ipNetwork (s : String) : Option (Nat × Nat) :=
  match splitChar s '/' with
  | [addr] => (ipv4FromString addr).map (fun a => (a, a))
  | [addr, pre] => do
    let a ← ipv4FromString addr
    let p ← maskBitsOfString pre
    let block := 2 ^ (32 - p)
    let net := a - a % block
    pure (net, net + (block - 1))
  | _ => none

/-- Embedding of `parse_ip_range` (AzFunc.py lines 25-36).  Accepts CIDR,
`a-b` range or a single IP and returns `(start_ip, end_ip)` as strings.
The `-` branch is Python `start, end = ip_str.split("-")`: it splits on
every `-` and raises `ValueError` unless that yields exactly two parts,
and it performs no validation of the two sides beyond `strip`. -/
def parse_ip_range (ip_str : String) : Except PyErr (String × String) :=
  let s := pyStrip ip_str
  if containsChar s '/' then
    match ipNetwork s with
    | some (net, bcast) => .ok (ipToString net, ipToString bcast)
    | none => .error .valueError
  else if containsChar s '-' then
    match splitChar s '-' with
    | [st, en] => .ok (pyStrip st, pyStrip en)
    | _ => .error .valueError
  else
    .ok (s, s)

example : parse_ip_range "10.0.0.0/24" = .ok ("10.0.0.0", "10.0.0.255") := by
  decide

example : parse_ip_range " 10.0.0.5 - 10.0.0.10 " = .ok ("10.0.0.5", "10.0.0.10") := by
  decide

example : parse_ip_range "foo-bar" = .ok ("foo", "bar") := by decide

example : parse_ip_range "1.2.3.4-5.6.7.8-9.9.9.9" = .error .valueError := by
  decide

example : ipv4FromString "192.168.1.1" = some 3232235777 := by decide

example : ipToString 3232235778 = "192.168.1.2" := by decide

/-- One SQL firewall rule as returned by the management API list call:
`{"name": ..., "properties": {"startIpAddress": ..., "endIpAddress": ...}}`. -/
structure SqlRule where
  name : String
  startIpAddress : String
  endIpAddress : String
deriving DecidableEq

/-- One entry of the per-item result array built by the two reconcilers:
`{"ip", "status", "message"}`, `{"status", "message"}` or `{"error"}`. -/
inductive RuleResult where
  | ipResult : String → Nat → String → RuleResult
  | statusResult : Nat → String → RuleResult
  | errorResult : String → RuleResult
deriving DecidableEq

/-- The dictionary value of one `networkAcls` field: the `ipRules` array
of `{"action", "value"}` entries, or any other JSON value, kept opaque. -/
structure IpEntry where
  action : String
  value : String
deriving DecidableEq

inductive AclVal where
  | rules : List IpEntry → AclVal
  | other : String → AclVal
deriving DecidableEq

/-- An outbound HTTP call issued during one invocation, in order: the
managed-identity token acquisition, then per-backend management calls.
The storage `PATCH` carries the written `networkAcls` body. -/
inductive RemoteCall where
  | tokenAcquire : RemoteCall
  | sqlGetRules : RemoteCall
  | sqlPut : String → RemoteCall
  | sqlDelete : String → RemoteCall
  | storageGet : RemoteCall
  | storagePatch : List (String × AclVal) → RemoteCall
deriving DecidableEq

/-- Oracle for the remote backends: the responses each outbound call
would receive during this invocation (no concurrent mutation within one
call, matching the spec's single read-then-write model). -/
structure RemoteEnv where
  sqlGetStatus : Nat
  sqlGetText : String
  sqlRules : List SqlRule
  sqlPutStatus : String → Nat
  sqlPutText : String → String
  sqlDeleteStatus : String → Nat
  sqlDeleteText : String → String
  storageFetched : Option (List (String × AclVal))
  storagePatchStatus : Nat
  storagePatchText : String

/-- Python `rule["name"].split("/")[-1]`. -/
def lastSegment (s : String) : String :=
  (splitChar s '/').getLastD s

/-- The synthesized SQL rule name (AzFunc.py line 58):
`rule_{start_ip.replace('.', '_')}_{end_ip.replace('.', '_')}`. -/
def sqlRuleName (s e : String) : String :=
  "rule_" ++ replaceChar s '.' '_' ++ "_" ++ replaceChar e '.' '_'

/-- One iteration group of the `for ip in ip_rules` loop of
`manage_sql_firewall` (AzFunc.py lines 53-81): the results appended for
this item and the outbound calls it issues.  A raised exception (from
`parse_ip_range`) aborts with `.error`. -/
def sqlProcessIp (env : RemoteEnv) (action : String) (existing : List SqlRule)
    (ip : String) : Except PyErr (List RuleResult) × List RemoteCall :=
  match parse_ip_range ip with
  | .error err => (.error err, [])
  | .ok (s0, e0) =>
    let start_ip := pyStrip s0
    let end_ip := pyStrip e0
    if action = "add" then
      let rule_name := sqlRuleName start_ip end_ip
      (.ok [.ipResult ip (env.sqlPutStatus rule_name) (env.sqlPutText rule_name)],
        [.sqlPut rule_name])
    else if action = "remove" then
      let matching := existing.filter (fun r =>
        decide (pyStrip r.startIpAddress = start_ip ∧ pyStrip r.endIpAddress = end_ip))
      match matching with
      | [] => (.ok [.ipResult ip 404 "No matching rule found"], [])
      | _ =>
        (.ok (matching.map (fun r =>
            .ipResult ip (env.sqlDeleteStatus (lastSegment r.name))
              (env.sqlDeleteText (lastSegment r.name)))),
          matching.map (fun r => .sqlDelete (lastSegment r.name)))
    else
      (.ok [.errorResult ("Invalid action: " ++ action)], [])

/-- The whole `for ip in ip_rules` loop of `manage_sql_firewall`: results
are accumulated in order; an exception aborts the remaining items but the
calls already issued stay in the trace. -/
def sqlProcessAll (env : RemoteEnv) (action : String) (existing : List SqlRule) :
    List String → Except PyErr (List RuleResult) × List RemoteCall
  | [] => (.ok [], [])
  | ip :: rest =>
    match sqlProcessIp env action existing ip with
    | (.error err, calls) => (.error err, calls)
    | (.ok rs, calls) =>
      match sqlProcessAll env action existing rest with
      | (.error err, calls2) => (.error err, calls ++ calls2)
      | (.ok rs2, calls2) => (.ok (rs ++ rs2), calls ++ calls2)

/-- Embedding of `manage_sql_firewall` (AzFunc.py lines 40-83): fetch the
existing rules, then process each input item; a failed fetch returns one
aggregate error result. -/
def manage_sql_firewall (env : RemoteEnv) (action : String) (ip_rules : List String) :
    Except PyErr (List RuleResult) × List RemoteCall :=
  if env.sqlGetStatus ≠ 200 then
    (.ok [.errorResult ("Failed to get existing rules: " ++ env.sqlGetText)],
      [.sqlGetRules])
  else
    match sqlProcessAll env action env.sqlRules ip_rules with
    | (r, calls) => (r, .sqlGetRules :: calls)

/-- A concrete oracle used by the witnesses and counterexamples. -/
def sampleEnv : RemoteEnv where
  sqlGetStatus := 200
  sqlGetText := ""
  sqlRules := []
  sqlPutStatus := fun _ => 201
  sqlPutText := fun _ => "created"
  sqlDeleteStatus := fun _ => 200
  sqlDeleteText := fun _ => "deleted"
  storageFetched := none
  storagePatchStatus := 200
  storagePatchText := "patched"

example :
    manage_sql_firewall sampleEnv "add" ["1.2.3.4"] =
      (.ok [.ipResult "1.2.3.4" 201 "created"],
        [.sqlGetRules, .sqlPut "rule_1_2_3_4_1_2_3_4"]) := by decide

example :
    manage_sql_firewall sampleEnv "remove" ["1.2.3.4"] =
      (.ok [.ipResult "1.2.3.4" 404 "No matching rule found"], [.sqlGetRules]) := by
  decide

example :
    manage_sql_firewall sampleEnv "nuke" ["1.2.3.4"] =
      (.ok [.errorResult "Invalid action: nuke"], [.sqlGetRules]) := by decide

/-- The `while start_ip <= end_ip` loop of `expand_ip_range` (AzFunc.py
lines 112-115), recursion on the loop measure `endv + 1 - cur` made a
structural argument: append the rendering of the current address, then
`start_ip += 1`, which in Python raises (a subclass of) `ValueError`
when the incremented value exceeds `255.255.255.255`. -/
def expandWhileAux : Nat → Nat → Nat → List String → Except PyErr (List String)
  | 0, _, _, acc => .ok acc
  | fuel + 1, cur, endv, acc =>
    if cur ≤ endv then
      let acc2 := acc ++ [ipToString cur]
      if cur + 1 > ipv4Max then .error .valueError
      else expandWhileAux fuel (cur + 1) endv acc2
    else .ok acc

/-- The `while` loop entered at `cur`, with the measure instantiated. -/
def expandWhile (cur endv : Nat) (acc : List String) :
    Except PyErr (List String) :=
  expandWhileAux (endv + 1 - cur) cur endv acc

/-- Embedding of the nested `expand_ip_range` of `manage_storage_firewall`
(AzFunc.py lines 100-120): a CIDR token is kept verbatim, a dash token is
split (`start, end = ip_str.split("-")`, raising on more than one dash)
and expanded address by address inside a `try` whose `except ValueError`
returns the empty list, and any other token is kept as-is. -/
def expand_ip_range (ip_str : String) : Except PyErr (List String) :=
  let s := pyStrip ip_str
  if containsChar s '/' then .ok [s]
  else if containsChar s '-' then
    match splitChar s '-' with
    | [st, en] =>
      match ipv4FromString (pyStrip st), ipv4FromString (pyStrip en) with
      | some a, some b =>
        (match expandWhile a b [] with
          | .ok l => .ok l
          | .error _ => .ok [])
      | _, _ => .ok []
    | _ => .error .valueError
  else .ok [s]

/-- The flattening loop of `manage_storage_firewall` (AzFunc.py lines
123-125): `expanded_ips.extend(expand_ip_range(rule))` per input rule,
exceptions propagating. -/
def expandAllRules : List String → Except PyErr (List String)
  | [] => .ok []
  | r :: rest => do
    let e ← expand_ip_range r
    let es ← expandAllRules rest
    pure (e ++ es)

/-- Python dictionary lookup on the `networkAcls` association list. -/
def dictGet (d : List (String × AclVal)) (k : String) : Option AclVal :=
  match d with
  | [] => none
  | (k2, v) :: rest => if k2 = k then some v else dictGet rest k

/-- Python dictionary assignment `d[k] = v`: replace in place, or append
the new key at the end. -/
def dictSet (d : List (String × AclVal)) (k : String) (v : AclVal) :
    List (String × AclVal) :=
  match d with
  | [] => [(k, v)]
  | (k2, v2) :: rest =>
    if k2 = k then (k2, v) :: rest else (k2, v2) :: dictSet rest k v

/-- The `value` fields of the current `ipRules` entries (AzFunc.py line
98). -/
def aclValues (entries : List IpEntry) : List String :=
  entries.map (fun r => r.value)

/-- The `add` branch of `manage_storage_firewall` (AzFunc.py lines
127-130): append each expanded value not present in the `existing` list
computed before the loop; `existing` is not updated inside the loop. -/
def storageAdd (entries : List IpEntry) (expanded : List String) : List IpEntry :=
  entries ++ (expanded.filter (fun ip => decide (ip ∉ aclValues entries))).map
    (fun ip => { action := "Allow", value := ip })

/-- The `remove` branch of `manage_storage_firewall` (AzFunc.py line
132): keep the entries whose value is not in the expanded set. -/
def storageRemove (entries : List IpEntry) (expanded : List String) : List IpEntry :=
  entries.filter (fun r => decide (r.value ∉ expanded))

/-- The default `networkAcls` used when the fetched account carries none
(AzFunc.py line 93). -/
def defaultAcls : List (String × AclVal) :=
  [("ipRules", .rules []), ("defaultAction", .other "Deny")]

/-- Embedding of `manage_storage_firewall` (AzFunc.py lines 87-138):
read-modify-write of the whole `networkAcls` object; only the `ipRules`
key is assigned; the written body travels in the `storagePatch` trace
entry.  An `ipRules` value that is not a list of entries makes the
Python comprehension at line 98 raise, modelled as a `typeError`. -/
def manage_storage_firewall (env : RemoteEnv) (action : String)
    (ip_rules : List String) :
    Except PyErr (List RuleResult) × List RemoteCall :=
  let acls0 := match env.storageFetched with
    | some a => a
    | none => defaultAcls
  let acls := match dictGet acls0 "ipRules" with
    | some _ => acls0
    | none => dictSet acls0 "ipRules" (.rules [])
  match dictGet acls "ipRules" with
  | some (.rules entries) =>
    (match expandAllRules ip_rules with
      | .error err => (.error err, [.storageGet])
      | .ok expanded_ips =>
        if action = "add" then
          let newAcls := dictSet acls "ipRules" (.rules (storageAdd entries expanded_ips))
          (.ok [.statusResult env.storagePatchStatus env.storagePatchText],
            [.storageGet, .storagePatch newAcls])
        else if action = "remove" then
          let newAcls := dictSet acls "ipRules" (.rules (storageRemove entries expanded_ips))
          (.ok [.statusResult env.storagePatchStatus env.storagePatchText],
            [.storageGet, .storagePatch newAcls])
        else
          (.ok [.errorResult ("Invalid action: " ++ action)], [.storageGet]))
  | _ => (.error .typeError, [.storageGet])

/-- The parsed JSON body of the inbound `POST` (AzFunc.py lines 147-152),
with all required fields present. -/
structure Request where
  subscriptionId : String
  serviceType : String
  serviceName : String
  resourceGroup : String
  action : String
  ipRules : List String

/-- The JSON body of the HTTP response. -/
inductive RespBody where
  | results : List RuleResult → RespBody
  | invalidService : RespBody
  | errorBody : PyErr → RespBody
deriving DecidableEq

/-- An HTTP response: status code and body. -/
structure HttpResp where
  status : Nat
  body : RespBody
deriving DecidableEq

/-- Embedding of the route handler `HttpTriggerIPFunc` (AzFunc.py lines
142-179): lower-case the service type and action, acquire a token, then
dispatch; an unknown service type returns `400`; any exception escaping
the dispatched reconciler is converted to a `500` by the top-level
`except`. -/
def HttpTriggerIPFunc (env : RemoteEnv) (req : Request) : HttpResp × List RemoteCall :=
  let service_type := pyLower req.serviceType
  let action := pyLower req.action
  if service_type = "sql" then
    match manage_sql_firewall env action req.ipRules with
    | (.ok rs, calls) => (⟨200, .results rs⟩, .tokenAcquire :: calls)
    | (.error e, calls) => (⟨500, .errorBody e⟩, .tokenAcquire :: calls)
  else if service_type = "storage" then
    match manage_storage_firewall env action req.ipRules with
    | (.ok rs, calls) => (⟨200, .results rs⟩, .tokenAcquire :: calls)
    | (.error e, calls) => (⟨500, .errorBody e⟩, .tokenAcquire :: calls)
  else
    (⟨400, .invalidService⟩, [.tokenAcquire])

example :
    expand_ip_range "192.168.1.1-192.168.1.3" =
      .ok ["192.168.1.1", "192.168.1.2", "192.168.1.3"] := by decide

example : expand_ip_range " 10.0.0.0/24 " = .ok ["10.0.0.0/24"] := by decide

example : expand_ip_range "255.255.255.254-255.255.255.255" = .ok [] := by decide

example :
    manage_storage_firewall sampleEnv "add" ["1.2.3.4"] =
      (.ok [.statusResult 200 "patched"],
        [.storageGet, .storagePatch
          [("ipRules", .rules [⟨"Allow", "1.2.3.4"⟩]),
           ("defaultAction", .other "Deny")]]) := by decide

example :
    HttpTriggerIPFunc sampleEnv
      ⟨"", "Blob", "acct", "rg", "add", ["1.2.3.4"]⟩ =
      (⟨400, .invalidService⟩, [.tokenAcquire]) := by decide

example :
    HttpTriggerIPFunc sampleEnv
      ⟨"", "SQL", "srv", "rg", "foo", ["1.2.3.4"]⟩ =
      (⟨200, .results [.errorResult "Invalid action: foo"]⟩,
        [.tokenAcquire, .sqlGetRules]) := by decide

/-- The dotted-quad renderings of every address in the closed interval
`[a, b]`. -/
def ipRangeStrings (a b : Nat) : List String :=
  (List.range (b + 1 - a)).map (fun i => ipToString (a + i))

/-- How many result entries one input item contributes: one for `add`
and for an unknown action, `max 1 (number of matching rules)` for
`remove`, none for an item whose parse raises. -/
def sqlItemWidth (existing : List SqlRule) (action : String) (ip : String) : Nat :=
  match parse_ip_range ip with
  | .error _ => 0
  | .ok (s, e) =>
    if action = "add" then 1
    else if action = "remove" then
      max 1 ((existing.filter (fun r =>
        decide (pyStrip r.startIpAddress = pyStrip s ∧
          pyStrip r.endIpAddress = pyStrip e))).length)
    else 1

/-- An oracle whose rule list holds two distinct rules with the same
start and end addresses. -/
def dupRulesEnv : RemoteEnv :=
  { sampleEnv with sqlRules :=
      [⟨"ruleA", "1.2.3.4", "1.2.3.4"⟩, ⟨"ruleB", "1.2.3.4", "1.2.3.4"⟩] }

/-- A fetched `networkAcls` carrying a non-default `defaultAction` and an
extra field, used by the C10 witness. -/
def aclsSample : List (String × AclVal) :=
  [("ipRules", .rules []), ("defaultAction", .other "Allow"),
   ("bypass", .other "AzureServices")]

/-- The concrete oracle serving `aclsSample` as the fetched state. -/
def storageEnvSample : RemoteEnv :=
  { sampleEnv with storageFetched := some aclsSample }

/-- A fetched `networkAcls` that lacks the `ipRules` key entirely, used
by the C10 witness for the injected-key path. -/
def aclsNoRules : List (String × AclVal) :=
  [("defaultAction", .other "Allow"), ("bypass", .other "AzureServices")]

/-- The concrete oracle serving `aclsNoRules` as the fetched state. -/
def storageEnvNoRules : RemoteEnv :=
  { sampleEnv with storageFetched := some aclsNoRules }

example :
    manage_storage_firewall storageEnvNoRules "add" ["1.2.3.4"] =
      (.ok [.statusResult 200 "patched"],
        [.storageGet, .storagePatch
          [("defaultAction", .other "Allow"), ("bypass", .other "AzureServices"),
           ("ipRules", .rules [⟨"Allow", "1.2.3.4"⟩])]]) := by decide

theorem ipRangeStrings_cons (cur endv : Nat) (h : cur ≤ endv) :
    ipRangeStrings cur endv = ipToString cur :: ipRangeStrings (cur + 1) endv := by
  unfold ipRangeStrings
  have h1 : endv + 1 - cur = (endv + 1 - (cur + 1)) + 1 := by omega
  have h2 : ((fun i => ipToString (cur + i)) ∘ Nat.succ) =
      (fun i => ipToString (cur + 1 + i)) := by
    funext i
    simp only [Function.comp_apply]
    congr 1
    omega
  rw [h1, List.range_succ_eq_map]
  simp only [List.map_cons, List.map_map, Nat.add_zero, h2]

/-- What the loop of `expand_ip_range` computes: every address of the
interval rendered in order, except that a loop whose bound reaches
`255.255.255.255` raises on the final increment. -/
theorem expandWhileAux_eq (endv : Nat) :
    ∀ (fuel cur : Nat) (acc : List String), endv + 1 - cur ≤ fuel →
      expandWhileAux fuel cur endv acc =
        if cur ≤ endv ∧ ipv4Max ≤ endv then .error .valueError
        else .ok (acc ++ ipRangeStrings cur endv) := by
  intro fuel
  induction fuel with
  | zero =>
    intro cur acc h
    have hc : ¬ cur ≤ endv := by omega
    have h0 : endv + 1 - cur = 0 := by omega
    simp [expandWhileAux, hc, ipRangeStrings, h0]
  | succ n ih =>
    intro cur acc h
    simp only [expandWhileAux]
    by_cases hc : cur ≤ endv
    · rw [if_pos hc]
      by_cases hover : cur + 1 > ipv4Max
      · have hmax : ipv4Max ≤ endv := by omega
        rw [if_pos hover, if_pos ⟨hc, hmax⟩]
      · rw [if_neg hover, ih (cur + 1) (acc ++ [ipToString cur]) (by omega)]
        by_cases hmax : ipv4Max ≤ endv
        · have hc1 : cur + 1 ≤ endv := by omega
          rw [if_pos ⟨hc1, hmax⟩, if_pos ⟨hc, hmax⟩]
        · rw [if_neg (by tauto), if_neg (by tauto), ipRangeStrings_cons cur endv hc]
          simp
    · rw [if_neg hc, if_neg (by tauto)]
      have h0 : endv + 1 - cur = 0 := by omega
      simp [ipRangeStrings, h0]

theorem expandWhile_eq (cur endv : Nat) (acc : List String) :
    expandWhile cur endv acc =
      if cur ≤ endv ∧ ipv4Max ≤ endv then .error .valueError
      else .ok (acc ++ ipRangeStrings cur endv) :=
  expandWhileAux_eq endv (endv + 1 - cur) cur acc (Nat.le_refl _)

theorem parseOctet_le (s : String) (v : Nat) (h : parseOctet s = some v) :
    v ≤ 255 := by
  unfold parseOctet at h
  repeat' split at h
  all_goals simp_all
  all_goals omega

theorem maskBitsOfString_le (s : String) (p : Nat)
    (h : maskBitsOfString s = some p) : p ≤ 32 := by
  unfold maskBitsOfString at h
  repeat' split at h
  all_goals simp_all
  all_goals omega

theorem ipv4FromString_le (s : String) (a : Nat)
    (h : ipv4FromString s = some a) : a ≤ ipv4Max := by
  have hmax : ipv4Max = 4294967295 := by norm_num [ipv4Max]
  unfold ipv4FromString at h
  split at h
  case h_2 => simp at h
  case h_1 =>
    rename_i o1 o2 o3 o4 heq
    cases h1 : parseOctet o1 with
    | none => rw [h1] at h; simp at h
    | some v1 =>
      rw [h1] at h
      cases h2 : parseOctet o2 with
      | none => rw [h2] at h; simp at h
      | some v2 =>
        rw [h2] at h
        cases h3 : parseOctet o3 with
        | none => rw [h3] at h; simp at h
        | some v3 =>
          rw [h3] at h
          cases h4 : parseOctet o4 with
          | none => rw [h4] at h; simp at h
          | some v4 =>
            rw [h4] at h
            simp at h
            have b1 := parseOctet_le o1 v1 h1
            have b2 := parseOctet_le o2 v2 h2
            have b3 := parseOctet_le o3 v3 h3
            have b4 := parseOctet_le o4 v4 h4
            omega

/-- The network / broadcast pair returned by the CIDR parser is a
well-formed interval inside the IPv4 space. -/
theorem ipNetwork_sound (s : String) (net bcast : Nat)
    (h : ipNetwork s = some (net, bcast)) :
    net ≤ bcast ∧ bcast ≤ ipv4Max := by
  have hmax : ipv4Max = 4294967295 := by norm_num [ipv4Max]
  unfold ipNetwork at h
  split at h
  case h_1 =>
    rename_i addr heq
    cases ha : ipv4FromString addr with
    | none => rw [ha] at h; simp at h
    | some a =>
      rw [ha] at h
      simp at h
      have hb := ipv4FromString_le addr a ha
      omega
  case h_2 =>
    rename_i addr pre heq
    cases ha : ipv4FromString addr with
    | none => rw [ha] at h; simp at h
    | some a =>
      rw [ha] at h
      cases hp : maskBitsOfString pre with
      | none => rw [hp] at h; simp at h
      | some p =>
        rw [hp] at h
        simp at h
        obtain ⟨hnet, hbc⟩ := h
        have hble := ipv4FromString_le addr a ha
        have hp32 := maskBitsOfString_le pre p hp
        have bpos : 0 < 2 ^ (32 - p) := pow_pos (by norm_num) _
        have hb2 : 2 ^ (32 - p) * 2 ^ p = 2 ^ 32 := by
          rw [← pow_add]
          congr 1
          omega
        have hdm := Nat.div_add_mod a (2 ^ (32 - p))
        have hlt : a / 2 ^ (32 - p) < 2 ^ p := by
          rw [Nat.div_lt_iff_lt_mul bpos]
          calc a < 2 ^ 32 := by omega
            _ = 2 ^ p * 2 ^ (32 - p) := by rw [Nat.mul_comm]; exact hb2.symm
        have hstep : 2 ^ (32 - p) * (a / 2 ^ (32 - p) + 1) ≤ 2 ^ 32 := by
          calc 2 ^ (32 - p) * (a / 2 ^ (32 - p) + 1)
              ≤ 2 ^ (32 - p) * 2 ^ p := Nat.mul_le_mul_left _ (by omega)
            _ = 2 ^ 32 := hb2
        have hmul : 2 ^ (32 - p) * (a / 2 ^ (32 - p) + 1) =
            2 ^ (32 - p) * (a / 2 ^ (32 - p)) + 2 ^ (32 - p) := by ring
        have h32 : (2 : Nat) ^ 32 = 4294967296 := by norm_num
        omega
  case h_3 => simp at h

theorem dictGet_dictSet_self (d : List (String × AclVal)) (k : String) (v : AclVal) :
    dictGet (dictSet d k v) k = some v := by
  induction d with
  | nil => simp [dictGet, dictSet]
  | cons hd tl ih =>
    obtain ⟨k2, v2⟩ := hd
    by_cases hk : k2 = k
    · simp [dictGet, dictSet, hk]
    · simp [dictGet, dictSet, hk, ih]

theorem dictGet_dictSet_ne (d : List (String × AclVal)) (k : String) (v : AclVal)
    (k' : String) (h : k' ≠ k) :
    dictGet (dictSet d k v) k' = dictGet d k' := by
  induction d with
  | nil =>
    have hne : ¬ k = k' := fun he => h he.symm
    simp [dictGet, dictSet, hne]
  | cons hd tl ih =>
    obtain ⟨k2, v2⟩ := hd
    by_cases hk : k2 = k
    · subst hk
      have hne : ¬ k2 = k' := fun he => h he.symm
      simp [dictGet, dictSet, hne]
    · simp [dictGet, dictSet, hk, ih]

/-- Appending input batches composes the per-item processing when the
first batch raises no exception. -/
theorem sqlProcessAll_ok_append (env : RemoteEnv) (action : String)
    (existing : List SqlRule) (xs ys : List String)
    (rsx : List RuleResult) (csx : List RemoteCall)
    (hx : sqlProcessAll env action existing xs = (.ok rsx, csx)) :
    sqlProcessAll env action existing (xs ++ ys) =
      (match sqlProcessAll env action existing ys with
        | (.error err, c) => (.error err, csx ++ c)
        | (.ok rs, c) => (.ok (rsx ++ rs), csx ++ c)) := by
  induction xs generalizing rsx csx with
  | nil =>
    simp only [sqlProcessAll] at hx
    injection hx with h1 h2
    injection h1 with h1
    subst h1
    subst h2
    simp only [List.nil_append]
    cases hys : sqlProcessAll env action existing ys with
    | mk r c => cases r <;> simp
  | cons ip rest ih =>
    rw [List.cons_append]
    simp only [sqlProcessAll] at hx ⊢
    cases hip : sqlProcessIp env action existing ip with
    | mk r c =>
      rw [hip] at hx
      cases r with
      | error err => simp at hx
      | ok rs =>
        cases hrest : sqlProcessAll env action existing rest with
        | mk r2 c2 =>
          rw [hrest] at hx
          cases r2 with
          | error err => simp at hx
          | ok rs2 =>
            simp at hx
            obtain ⟨h1, h2⟩ := hx
            subst h1
            subst h2
            rw [ih rs2 c2 hrest]
            cases hys : sqlProcessAll env action existing ys with
            | mk r3 c3 => cases r3 <;> simp

/-- A `remove` item with no matching rule yields exactly the `404`
entry and issues no outbound call. -/
theorem sqlProcessIp_remove_notfound (env : RemoteEnv) (existing : List SqlRule)
    (ip s e : String)
    (hparse : parse_ip_range ip = .ok (s, e))
    (hmatch : existing.filter (fun r =>
        decide (pyStrip r.startIpAddress = pyStrip s ∧
          pyStrip r.endIpAddress = pyStrip e)) = []) :
    sqlProcessIp env "remove" existing ip =
      (.ok [.ipResult ip 404 "No matching rule found"], []) := by
  simp only [sqlProcessIp, hparse]
  rw [if_neg (by decide), if_pos (by trivial), hmatch]

/-- An `add` item always yields exactly one result and one `PUT` to the
synthesized rule name. -/
theorem sqlProcessIp_add_eq (env : RemoteEnv) (existing : List SqlRule)
    (ip s e : String) (hp : parse_ip_range ip = .ok (s, e)) :
    sqlProcessIp env "add" existing ip =
      (.ok [.ipResult ip (env.sqlPutStatus (sqlRuleName (pyStrip s) (pyStrip e)))
          (env.sqlPutText (sqlRuleName (pyStrip s) (pyStrip e)))],
        [.sqlPut (sqlRuleName (pyStrip s) (pyStrip e))]) := by
  simp only [sqlProcessIp, hp]
  rw [if_pos (by trivial)]

/-- An item under an unknown action yields exactly the structured
invalid-action error and no outbound call. -/
theorem sqlProcessIp_invalid (env : RemoteEnv) (action : String)
    (existing : List SqlRule) (ip : String) (p : String × String)
    (hp : parse_ip_range ip = .ok p)
    (ha : action ≠ "add") (hr : action ≠ "remove") :
    sqlProcessIp env action existing ip =
      (.ok [.errorResult ("Invalid action: " ++ action)], []) := by
  obtain ⟨s, e⟩ := p
  simp only [sqlProcessIp, hp]
  rw [if_neg ha, if_neg hr]

/-- Under an unknown action every parseable batch maps to one structured
error per item, with no outbound call beyond the initial fetch. -/
theorem sqlProcessAll_invalid (env : RemoteEnv) (action : String)
    (existing : List SqlRule) (ips : List String)
    (ha : action ≠ "add") (hr : action ≠ "remove")
    (hok : ∀ ip ∈ ips, ∃ p, parse_ip_range ip = .ok p) :
    sqlProcessAll env action existing ips =
      (.ok (ips.map (fun _ => .errorResult ("Invalid action: " ++ action))), []) := by
  induction ips with
  | nil => simp [sqlProcessAll]
  | cons ip rest ih =>
    obtain ⟨p, hp⟩ := hok ip (by simp)
    simp only [sqlProcessAll]
    rw [sqlProcessIp_invalid env action existing ip p hp ha hr]
    rw [ih (fun i hi => hok i (by simp [hi]))]
    simp

theorem sqlProcessIp_length (env : RemoteEnv) (action : String)
    (existing : List SqlRule) (ip s e : String)
    (hp : parse_ip_range ip = .ok (s, e)) :
    ((sqlProcessIp env action existing ip).1).map List.length =
      .ok (sqlItemWidth existing action ip) := by
  simp only [sqlProcessIp, sqlItemWidth, hp]
  by_cases ha : action = "add"
  · rw [if_pos ha, if_pos ha]
    simp [Except.map]
  · rw [if_neg ha, if_neg ha]
    by_cases hr : action = "remove"
    · rw [if_pos hr, if_pos hr]
      cases hm : List.filter (fun r =>
          decide (pyStrip r.startIpAddress = pyStrip s ∧
            pyStrip r.endIpAddress = pyStrip e)) existing with
      | nil => simp [Except.map]
      | cons a l =>
        simp [Except.map]
    · rw [if_neg hr, if_neg hr]
      simp [Except.map]

/-- A fetch that succeeds followed by an unknown action returns the
structured invalid-action error per item after the initial `GET`. -/
theorem manage_sql_invalid (env : RemoteEnv) (action : String) (ips : List String)
    (hget : env.sqlGetStatus = 200)
    (ha : action ≠ "add") (hr : action ≠ "remove")
    (hok : ∀ ip ∈ ips, ∃ p, parse_ip_range ip = .ok p) :
    manage_sql_firewall env action ips =
      (.ok (ips.map (fun _ => .errorResult ("Invalid action: " ++ action))),
        [.sqlGetRules]) := by
  simp only [manage_sql_firewall]
  rw [if_neg (fun hc => hc hget)]
  rw [sqlProcessAll_invalid env action env.sqlRules ips ha hr hok]

/-- The storage reconciler under `add`: one aggregate result and a
`PATCH` whose body assigns exactly the `ipRules` key. -/
theorem manage_storage_add (env : RemoteEnv) (ips : List String)
    (acls : List (String × AclVal)) (entries : List IpEntry) (E : List String)
    (hf : env.storageFetched = some acls)
    (hr : dictGet acls "ipRules" = some (.rules entries))
    (hE : expandAllRules ips = .ok E) :
    manage_storage_firewall env "add" ips =
      (.ok [.statusResult env.storagePatchStatus env.storagePatchText],
        [.storageGet,
          .storagePatch (dictSet acls "ipRules" (.rules (storageAdd entries E)))]) := by
  simp only [manage_storage_firewall, hf, hr, hE]
  rw [if_pos (by trivial)]

/-- The storage reconciler under `remove`: one aggregate result and a
`PATCH` whose body assigns exactly the `ipRules` key. -/
theorem manage_storage_remove (env : RemoteEnv) (ips : List String)
    (acls : List (String × AclVal)) (entries : List IpEntry) (E : List String)
    (hf : env.storageFetched = some acls)
    (hr : dictGet acls "ipRules" = some (.rules entries))
    (hE : expandAllRules ips = .ok E) :
    manage_storage_firewall env "remove" ips =
      (.ok [.statusResult env.storagePatchStatus env.storagePatchText],
        [.storageGet,
          .storagePatch (dictSet acls "ipRules" (.rules (storageRemove entries E)))]) := by
  simp only [manage_storage_firewall, hf, hr, hE]
  rw [if_neg (by decide), if_pos (by trivial)]

/-- The storage reconciler under an unknown action: one structured error
after the `GET`, no `PATCH`. -/
theorem manage_storage_invalid (env : RemoteEnv) (action : String) (ips : List String)
    (acls : List (String × AclVal)) (entries : List IpEntry) (E : List String)
    (hf : env.storageFetched = some acls)
    (hr : dictGet acls "ipRules" = some (.rules entries))
    (hE : expandAllRules ips = .ok E)
    (ha : action ≠ "add") (hrm : action ≠ "remove") :
    manage_storage_firewall env action ips =
      (.ok [.errorResult ("Invalid action: " ++ action)], [.storageGet]) := by
  simp only [manage_storage_firewall, hf, hr, hE]
  rw [if_neg ha, if_neg hrm]

/-- The batch result length is the sum of the per-item widths, and no
exception escapes, whenever every token parses. -/
theorem sqlProcessAll_length (env : RemoteEnv) (action : String)
    (existing : List SqlRule) (ips : List String)
    (hok : ∀ ip ∈ ips, ∃ p, parse_ip_range ip = .ok p) :
    ((sqlProcessAll env action existing ips).1).map List.length =
      .ok ((ips.map (sqlItemWidth existing action)).sum) := by
  induction ips with
  | nil => simp [sqlProcessAll, Except.map]
  | cons ip rest ih =>
    obtain ⟨⟨s, e⟩, hp⟩ := hok ip (by simp)
    have hlen := sqlProcessIp_length env action existing ip s e hp
    have hrest := ih (fun i hi => hok i (by simp [hi]))
    simp only [sqlProcessAll]
    cases hip : sqlProcessIp env action existing ip with
    | mk r c =>
      rw [hip] at hlen
      cases r with
      | error err => simp [Except.map] at hlen
      | ok rs =>
        simp [Except.map] at hlen
        cases hr2 : sqlProcessAll env action existing rest with
        | mk r2 c2 =>
          rw [hr2] at hrest
          cases r2 with
          | error err => simp [Except.map] at hrest
          | ok rs2 =>
            simp [Except.map] at hrest ⊢
            omega

/-- C1 (amended): for the list backend, `Add` with input set `S` followed
by `Remove` with the same `S` returns the list to exactly its original
state provided no expanded desired value is already present in the
existing list.  Without that proviso the round-trip law fails: `Remove`
also strips pre-existing entries whose value is in the desired set (see
the counterexample). -/
theorem c1_add_remove_round_trip (L : List IpEntry) (S E : List String)
    (hE : expandAllRules S = .ok E)
    (hdisj : ∀ v ∈ E, v ∉ aclValues L) :
    storageRemove (storageAdd L E) E = L := by
  unfold storageAdd storageRemove
  rw [List.filter_append]
  have h1 : L.filter (fun r => decide (r.value ∉ E)) = L := by
    rw [List.filter_eq_self]
    intro r hr
    rw [decide_eq_true_iff]
    intro hmem
    exact hdisj r.value hmem (by simp [aclValues]; exact ⟨r, hr, rfl⟩)
  have h2 : ((E.filter (fun ip => decide (ip ∉ aclValues L))).map
      (fun ip => ({ action := "Allow", value := ip } : IpEntry))).filter
      (fun r => decide (r.value ∉ E)) = [] := by
    rw [List.filter_eq_nil_iff]
    intro a ha
    obtain ⟨ip, hip, rfl⟩ := List.mem_map.mp ha
    have hmem : ip ∈ E := (List.mem_filter.mp hip).1
    simp [hmem]
  rw [h1, h2, List.append_nil]

/-- Witness for C1 at a concrete disjoint instance. -/
theorem c1_add_remove_round_trip_witness :
    storageRemove (storageAdd [⟨"Allow", "8.8.8.8"⟩] ["1.2.3.4"]) ["1.2.3.4"] =
      [⟨"Allow", "8.8.8.8"⟩] :=
  c1_add_remove_round_trip [⟨"Allow", "8.8.8.8"⟩] ["1.2.3.4"] ["1.2.3.4"]
    (by decide) (by decide)

/-- C1 counterexample: a desired value already present in the existing
list is stripped by the round trip, so membership is not restored. -/
theorem c1_round_trip_counterexample :
    expandAllRules ["1.2.3.4"] = .ok ["1.2.3.4"] ∧
    storageRemove (storageAdd [⟨"Allow", "1.2.3.4"⟩] ["1.2.3.4"]) ["1.2.3.4"] = [] ∧
    "1.2.3.4" ∈ aclValues [⟨"Allow", "1.2.3.4"⟩] ∧
    "1.2.3.4" ∉ aclValues
      (storageRemove (storageAdd [⟨"Allow", "1.2.3.4"⟩] ["1.2.3.4"]) ["1.2.3.4"]) := by
  decide

/-- C5 (amended): for the list backend `Add`, a value already present in
the existing list is never appended again, but the deduplication is only
against the pre-existing list: each occurrence of a repeated value in the
expansion that is absent from the existing list is appended, so the
multiplicity in the written list is the existing multiplicity plus, for
absent values, the full multiplicity in the expansion. -/
theorem c5_add_dedup_against_existing (L : List IpEntry) (E : List String) (v : String) :
    (aclValues (storageAdd L E)).count v =
      (aclValues L).count v + (if v ∈ aclValues L then 0 else E.count v) := by
  unfold storageAdd
  have hcomp : ((fun r : IpEntry => r.value) ∘
      fun ip => ({ action := "Allow", value := ip } : IpEntry)) = id :=
    funext (fun x => rfl)
  have hsplit : aclValues (L ++ (E.filter (fun ip => decide (ip ∉ aclValues L))).map
      (fun ip => ({ action := "Allow", value := ip } : IpEntry))) =
      aclValues L ++ E.filter (fun ip => decide (ip ∉ aclValues L)) := by
    unfold aclValues
    rw [List.map_append, List.map_map, hcomp, List.map_id]
  rw [hsplit, List.count_append]
  congr 1
  by_cases hv : v ∈ aclValues L
  · rw [if_pos hv, List.count_eq_zero]
    intro hmem
    exact (decide_eq_true_iff.mp (List.mem_filter.mp hmem).2) hv
  · rw [if_neg hv]
    exact List.count_filter (by simp [hv])

/-- C5 counterexample: a repeated expanded value absent from the existing
list is appended twice, because `existing` is computed once before the
loop and never updated. -/
theorem c5_duplicate_append_counterexample :
    expandAllRules ["1.1.1.1", "1.1.1.1"] = .ok ["1.1.1.1", "1.1.1.1"] ∧
    storageAdd [] ["1.1.1.1", "1.1.1.1"] =
      [⟨"Allow", "1.1.1.1"⟩, ⟨"Allow", "1.1.1.1"⟩] ∧
    (aclValues (storageAdd [] ["1.1.1.1", "1.1.1.1"])).count "1.1.1.1" = 2 := by
  decide

/-- C2 (amended): a request whose lower-cased `serviceType` is neither
`sql` nor `storage` is answered `400` with no management-API call issued
(the token acquisition has already happened); but an unknown `action`
under a valid `serviceType` is not rejected up front: the state-fetch
`GET` is still issued and the handler answers `200` whose results are
structured invalid-action errors (one per item for the range backend, one
aggregate for the list backend). -/
theorem c2_invalid_input_rejection :
    (∀ (env : RemoteEnv) (req : Request),
      pyLower req.serviceType ≠ "sql" → pyLower req.serviceType ≠ "storage" →
      HttpTriggerIPFunc env req = (⟨400, .invalidService⟩, [.tokenAcquire]))
  ∧ (∀ (env : RemoteEnv) (req : Request),
      pyLower req.serviceType = "sql" →
      pyLower req.action ≠ "add" → pyLower req.action ≠ "remove" →
      env.sqlGetStatus = 200 →
      (∀ ip ∈ req.ipRules, ∃ p, parse_ip_range ip = .ok p) →
      HttpTriggerIPFunc env req =
        (⟨200, .results (req.ipRules.map (fun _ =>
            .errorResult ("Invalid action: " ++ pyLower req.action)))⟩,
          [.tokenAcquire, .sqlGetRules]))
  ∧ (∀ (env : RemoteEnv) (req : Request) (acls : List (String × AclVal))
        (entries : List IpEntry) (E : List String),
      pyLower req.serviceType = "storage" →
      pyLower req.action ≠ "add" → pyLower req.action ≠ "remove" →
      env.storageFetched = some acls →
      dictGet acls "ipRules" = some (.rules entries) →
      expandAllRules req.ipRules = .ok E →
      HttpTriggerIPFunc env req =
        (⟨200, .results [.errorResult ("Invalid action: " ++ pyLower req.action)]⟩,
          [.tokenAcquire, .storageGet])) := by
  refine ⟨?_, ?_, ?_⟩
  · intro env req h1 h2
    simp only [HttpTriggerIPFunc]
    rw [if_neg h1, if_neg h2]
  · intro env req hsvc ha hr hget hok
    simp only [HttpTriggerIPFunc]
    rw [if_pos hsvc]
    rw [manage_sql_invalid env (pyLower req.action) req.ipRules hget ha hr hok]
  · intro env req acls entries E hsvc ha hr hf hrules hE
    simp only [HttpTriggerIPFunc]
    rw [if_neg (by rw [hsvc]; decide), if_pos hsvc]
    rw [manage_storage_invalid env (pyLower req.action) req.ipRules acls entries E
      hf hrules hE ha hr]

/-- Witness for C2 at a concrete unknown service type. -/
theorem c2_invalid_input_rejection_witness :
    HttpTriggerIPFunc sampleEnv ⟨"", "Blob", "acct", "rg", "add", ["1.2.3.4"]⟩ =
      (⟨400, .invalidService⟩, [.tokenAcquire]) :=
  c2_invalid_input_rejection.1 sampleEnv ⟨"", "Blob", "acct", "rg", "add", ["1.2.3.4"]⟩
    (by decide) (by decide)

/-- C2 counterexample: an unknown `action` under `serviceType` `sql` is
not rejected before outbound calls — the rules fetch is issued and the
response status is `200`, not a 400-class rejection. -/
theorem c2_invalid_action_counterexample :
    HttpTriggerIPFunc sampleEnv ⟨"", "SQL", "srv", "rg", "foo", ["1.2.3.4"]⟩ =
      (⟨200, .results [.errorResult "Invalid action: foo"]⟩,
        [.tokenAcquire, .sqlGetRules]) ∧
    RemoteCall.sqlGetRules ∈
      (HttpTriggerIPFunc sampleEnv ⟨"", "SQL", "srv", "rg", "foo", ["1.2.3.4"]⟩).2 ∧
    (HttpTriggerIPFunc sampleEnv ⟨"", "SQL", "srv", "rg", "foo", ["1.2.3.4"]⟩).1.status
      = 200 := by
  decide

/-- C3 (amended): the parser never validates the two sides of a dash
token: it splits on every `-` (raising `ValueError`, modelled as
`Except.error`, when that yields more or fewer than two parts — not a
`ParseError` value), trims both sides and returns them verbatim, so a
side that is not a valid dotted-quad is returned as-is rather than
reported as a `ParseError`. -/
theorem c3_dash_parse_behavior :
    (∀ s a b : String,
      containsChar (pyStrip s) '/' = false →
      containsChar (pyStrip s) '-' = true →
      splitChar (pyStrip s) '-' = [a, b] →
      parse_ip_range s = .ok (pyStrip a, pyStrip b))
  ∧ (∀ (s : String) (l : List String),
      containsChar (pyStrip s) '/' = false →
      containsChar (pyStrip s) '-' = true →
      splitChar (pyStrip s) '-' = l → l.length ≠ 2 →
      parse_ip_range s = .error .valueError) := by
  constructor
  · intro s a b h1 h2 h3
    simp only [parse_ip_range, h1, h2, h3]
    rfl
  · intro s l h1 h2 h3 hlen
    simp only [parse_ip_range, h1, h2, h3]
    match l, hlen with
    | [], _ => rfl
    | [a], _ => rfl
    | [a, b], hlen => exact absurd rfl hlen
    | a :: b :: c :: tl, _ => rfl

/-- Witness for C3: a dash token with two invalid sides parses to the
pair of raw sides. -/
theorem c3_dash_parse_behavior_witness :
    parse_ip_range "foo-bar" = .ok ("foo", "bar") :=
  c3_dash_parse_behavior.1 "foo-bar" "foo" "bar" (by decide) (by decide) (by decide)

/-- C3 counterexample: `foo` and `bar` are not valid dotted-quads, yet
the parse succeeds instead of producing a `ParseError`. -/
theorem c3_unvalidated_sides_counterexample :
    parse_ip_range "foo-bar" = .ok ("foo", "bar") ∧
    ipv4FromString "foo" = none ∧ ipv4FromString "bar" = none ∧
    parse_ip_range "foo-bar" ≠ .error .valueError ∧
    parse_ip_range "foo-bar" ≠ .error .typeError := by
  decide

/-- C4 (confirmed): the synthesized rule name is a deterministic function
of the parsed `(start, end)` interval, so two tokens parsing to the same
interval put to the same rule name, and running `add` twice issues the
same `PUT` target both times (an upsert, not a duplicate). -/
theorem c4_rule_name_deterministic (env : RemoteEnv) (existing : List SqlRule)
    (t1 t2 s e : String)
    (h1 : parse_ip_range t1 = .ok (s, e))
    (h2 : parse_ip_range t2 = .ok (s, e)) :
    (sqlProcessIp env "add" existing t1).2 =
      [.sqlPut (sqlRuleName (pyStrip s) (pyStrip e))] ∧
    (sqlProcessIp env "add" existing t2).2 =
      (sqlProcessIp env "add" existing t1).2 := by
  rw [sqlProcessIp_add_eq env existing t1 s e h1,
    sqlProcessIp_add_eq env existing t2 s e h2]
  exact ⟨rfl, rfl⟩

/-- Witness for C4: a bare address and the degenerate range spelling of
the same interval produce the same `PUT` target. -/
theorem c4_rule_name_deterministic_witness :
    (sqlProcessIp sampleEnv "add" [] " 1.2.3.4 - 1.2.3.4 ").2 =
      [.sqlPut (sqlRuleName (pyStrip "1.2.3.4") (pyStrip "1.2.3.4"))] ∧
    (sqlProcessIp sampleEnv "add" [] "1.2.3.4").2 =
      (sqlProcessIp sampleEnv "add" [] " 1.2.3.4 - 1.2.3.4 ").2 :=
  c4_rule_name_deterministic sampleEnv [] " 1.2.3.4 - 1.2.3.4 " "1.2.3.4"
    "1.2.3.4" "1.2.3.4" (by decide) (by decide)

/-- C6 (amended): expansion for the list backend keeps a CIDR token
verbatim and a single address as-is, and expands a range token `a-b`
with valid sides into every discrete address of `[a, b]` — except when
`b` is `255.255.255.255` (with `a ≤ b`): there the increment past the
last address raises inside the `try` and the caught `ValueError`
discards the whole expansion, yielding the empty list.  The concrete
`192.168.1.1-192.168.1.3` example of the claim holds. -/
theorem c6_expansion_policy :
    (∀ s : String, containsChar (pyStrip s) '/' = true →
        expand_ip_range s = .ok [pyStrip s])
  ∧ (∀ (s st en : String) (a b : Nat),
        containsChar (pyStrip s) '/' = false →
        containsChar (pyStrip s) '-' = true →
        splitChar (pyStrip s) '-' = [st, en] →
        ipv4FromString (pyStrip st) = some a →
        ipv4FromString (pyStrip en) = some b →
        expand_ip_range s =
          .ok (if a ≤ b ∧ ipv4Max ≤ b then [] else ipRangeStrings a b))
  ∧ (∀ s : String, containsChar (pyStrip s) '/' = false →
        containsChar (pyStrip s) '-' = false →
        expand_ip_range s = .ok [pyStrip s])
  ∧ expand_ip_range "192.168.1.1-192.168.1.3" =
      .ok ["192.168.1.1", "192.168.1.2", "192.168.1.3"] := by
  refine ⟨?_, ?_, ?_, by decide⟩
  · intro s h
    simp only [expand_ip_range, h]
    rfl
  · intro s st en a b h1 h2 h3 ha hb
    simp only [expand_ip_range, h1, h2, h3, ha, hb]
    rw [expandWhile_eq a b []]
    by_cases hc : a ≤ b ∧ ipv4Max ≤ b
    · rw [if_pos hc, if_pos hc]
      rfl
    · rw [if_neg hc, if_neg hc]
      simp
  · intro s h1 h2
    simp only [expand_ip_range, h1, h2]
    rfl

/-- Witness for C6 at the claim's own example range. -/
theorem c6_expansion_policy_witness :
    expand_ip_range "192.168.1.1-192.168.1.3" =
      .ok (if 3232235777 ≤ 3232235779 ∧ ipv4Max ≤ 3232235779 then []
        else ipRangeStrings 3232235777 3232235779) :=
  c6_expansion_policy.2.1 "192.168.1.1-192.168.1.3" "192.168.1.1" "192.168.1.3"
    3232235777 3232235779 (by decide) (by decide) (by decide) (by decide) (by decide)

/-- C6 counterexample: the range ending at the broadcast-all address has
a two-address interval but expands to the empty list, because the caught
increment overflow discards the expansion. -/
theorem c6_overflow_counterexample :
    expand_ip_range "255.255.255.254-255.255.255.255" = .ok [] ∧
    ipv4FromString "255.255.255.254" = some (ipv4Max - 1) ∧
    ipv4FromString "255.255.255.255" = some ipv4Max ∧
    ipRangeStrings (ipv4Max - 1) ipv4Max =
      ["255.255.255.254", "255.255.255.255"] := by
  decide

/-- C7 (confirmed): every CIDR token the network parser accepts yields
the rendered (network address, broadcast address) pair, a well-formed
interval inside the IPv4 space; in particular `10.0.0.0/24` parses to
`[10.0.0.0, 10.0.0.255]`. -/
theorem c7_cidr_parse_interval :
    (∀ (tok : String) (net bcast : Nat),
      containsChar (pyStrip tok) '/' = true →
      ipNetwork (pyStrip tok) = some (net, bcast) →
      parse_ip_range tok = .ok (ipToString net, ipToString bcast) ∧
        (net ≤ bcast ∧ bcast ≤ ipv4Max))
  ∧ parse_ip_range "10.0.0.0/24" = .ok ("10.0.0.0", "10.0.0.255") := by
  refine ⟨?_, by decide⟩
  intro tok net bcast hsl hnet
  refine ⟨?_, ipNetwork_sound (pyStrip tok) net bcast hnet⟩
  simp only [parse_ip_range, hsl, hnet]
  rfl

/-- Witness for C7 at `10.0.0.0/24`. -/
theorem c7_cidr_parse_interval_witness :
    parse_ip_range "10.0.0.0/24" = .ok (ipToString 167772160, ipToString 167772415) ∧
      (167772160 ≤ 167772415 ∧ 167772415 ≤ ipv4Max) :=
  c7_cidr_parse_interval.1 "10.0.0.0/24" 167772160 167772415 (by decide) (by decide)

/-- C8 (confirmed): a `remove` item with zero exactly-matching existing
rules contributes exactly the `404` "No matching rule found" result —
no exception, no outbound call — and the surrounding items of the batch
are processed exactly as they would be on their own. -/
theorem c8_remove_not_found (env : RemoteEnv) (ip s e : String)
    (xs ys : List String) (rsx rsy : List RuleResult) (csx csy : List RemoteCall)
    (hget : env.sqlGetStatus = 200)
    (hparse : parse_ip_range ip = .ok (s, e))
    (hmatch : env.sqlRules.filter (fun r =>
        decide (pyStrip r.startIpAddress = pyStrip s ∧
          pyStrip r.endIpAddress = pyStrip e)) = [])
    (hxs : sqlProcessAll env "remove" env.sqlRules xs = (.ok rsx, csx))
    (hys : sqlProcessAll env "remove" env.sqlRules ys = (.ok rsy, csy)) :
    manage_sql_firewall env "remove" (xs ++ ip :: ys) =
      (.ok (rsx ++ .ipResult ip 404 "No matching rule found" :: rsy),
        .sqlGetRules :: (csx ++ csy)) := by
  simp only [manage_sql_firewall]
  rw [if_neg (fun hc => hc hget)]
  rw [sqlProcessAll_ok_append env "remove" env.sqlRules xs (ip :: ys) rsx csx hxs]
  have hitem := sqlProcessIp_remove_notfound env env.sqlRules ip s e hparse hmatch
  simp only [sqlProcessAll]
  rw [hitem, hys]
  simp

/-- Witness for C8: removing an absent range between two other absent
ranges yields three independent `404` results. -/
theorem c8_remove_not_found_witness :
    manage_sql_firewall sampleEnv "remove" (["1.1.1.1"] ++ "9.9.9.9" :: ["2.2.2.2"]) =
      (.ok ([.ipResult "1.1.1.1" 404 "No matching rule found"] ++
          .ipResult "9.9.9.9" 404 "No matching rule found" ::
            [.ipResult "2.2.2.2" 404 "No matching rule found"]),
        .sqlGetRules :: ([] ++ [])) :=
  c8_remove_not_found sampleEnv "9.9.9.9" "9.9.9.9" "9.9.9.9" ["1.1.1.1"] ["2.2.2.2"]
    [.ipResult "1.1.1.1" 404 "No matching rule found"]
    [.ipResult "2.2.2.2" 404 "No matching rule found"] [] []
    (by decide) (by decide) (by decide) (by decide) (by decide)

theorem sqlItemWidth_add_sum (existing : List SqlRule) (ips : List String)
    (hok : ∀ ip ∈ ips, ∃ p, parse_ip_range ip = .ok p) :
    (ips.map (sqlItemWidth existing "add")).sum = ips.length := by
  induction ips with
  | nil => rfl
  | cons ip rest ih =>
    obtain ⟨⟨s, e⟩, hp⟩ := hok ip (by simp)
    have hw : sqlItemWidth existing "add" ip = 1 := by
      simp only [sqlItemWidth, hp]
      rfl
    rw [List.map_cons, List.sum_cons, hw,
      ih (fun i hi => hok i (by simp [hi])), List.length_cons]
    omega

/-- C9 (amended): when the fetch succeeds and every token parses, the
range-backend reconciler never leaks an exception; `add` returns exactly
one result per input item, but `remove` returns `max 1 k` results for an
item matching `k` existing rules, so an input matching several rules
produces more results than inputs (see the counterexample). -/
theorem c9_result_multiplicity (env : RemoteEnv) (ips : List String)
    (hget : env.sqlGetStatus = 200)
    (hok : ∀ ip ∈ ips, ∃ p, parse_ip_range ip = .ok p) :
    ((manage_sql_firewall env "add" ips).1).map List.length = .ok ips.length ∧
    ((manage_sql_firewall env "remove" ips).1).map List.length =
      .ok ((ips.map (sqlItemWidth env.sqlRules "remove")).sum) := by
  have hman : ∀ action : String,
      ((manage_sql_firewall env action ips).1).map List.length =
        .ok ((ips.map (sqlItemWidth env.sqlRules action)).sum) := by
    intro action
    simp only [manage_sql_firewall]
    rw [if_neg (fun hc => hc hget)]
    cases hall : sqlProcessAll env action env.sqlRules ips with
    | mk r c =>
      have hlen := sqlProcessAll_length env action env.sqlRules ips hok
      rw [hall] at hlen
      exact hlen
  refine ⟨?_, hman "remove"⟩
  rw [hman "add", sqlItemWidth_add_sum env.sqlRules ips hok]

/-- Witness for C9 at a singleton batch. -/
theorem c9_result_multiplicity_witness :
    ((manage_sql_firewall sampleEnv "add" ["1.2.3.4"]).1).map List.length =
      .ok (List.length ["1.2.3.4"]) ∧
    ((manage_sql_firewall sampleEnv "remove" ["1.2.3.4"]).1).map List.length =
      .ok ((["1.2.3.4"].map (sqlItemWidth sampleEnv.sqlRules "remove")).sum) :=
  c9_result_multiplicity sampleEnv ["1.2.3.4"] rfl
    (by
      intro ip hip
      simp at hip
      subst hip
      exact ⟨("1.2.3.4", "1.2.3.4"), by decide⟩)

/-- C9 counterexample: one input item whose `remove` matches two existing
rules yields two result entries, not one per input. -/
theorem c9_two_results_counterexample :
    manage_sql_firewall dupRulesEnv "remove" ["1.2.3.4"] =
      (.ok [.ipResult "1.2.3.4" 200 "deleted", .ipResult "1.2.3.4" 200 "deleted"],
        [.sqlGetRules, .sqlDelete "ruleA", .sqlDelete "ruleB"]) ∧
    ((manage_sql_firewall dupRulesEnv "remove" ["1.2.3.4"]).1).map List.length =
      .ok 2 ∧
    List.length ["1.2.3.4"] = 1 := by
  decide

/-- When no `networkAcls` was fetched, the default object is used and
only then does `defaultAction` get the `Deny` default (`add` case). -/
theorem manage_storage_add_nofetch (env : RemoteEnv) (ips : List String)
    (E : List String)
    (hf : env.storageFetched = none)
    (hE : expandAllRules ips = .ok E) :
    manage_storage_firewall env "add" ips =
      (.ok [.statusResult env.storagePatchStatus env.storagePatchText],
        [.storageGet,
          .storagePatch (dictSet defaultAcls "ipRules" (.rules (storageAdd [] E)))]) := by
  simp only [manage_storage_firewall, hf, hE]
  rfl

/-- When no `networkAcls` was fetched, the default object is used and
only then does `defaultAction` get the `Deny` default (`remove` case). -/
theorem manage_storage_remove_nofetch (env : RemoteEnv) (ips : List String)
    (E : List String)
    (hf : env.storageFetched = none)
    (hE : expandAllRules ips = .ok E) :
    manage_storage_firewall env "remove" ips =
      (.ok [.statusResult env.storagePatchStatus env.storagePatchText],
        [.storageGet,
          .storagePatch (dictSet defaultAcls "ipRules" (.rules (storageRemove [] E)))]) := by
  simp only [manage_storage_firewall, hf, hE]
  rfl

/-- When the fetched `networkAcls` lacks the `ipRules` key (AzFunc.py
lines 95-96), an empty `ipRules` is injected first and then assigned;
no other key is touched (`add` case). -/
theorem manage_storage_add_noipkey (env : RemoteEnv) (ips : List String)
    (acls : List (String × AclVal)) (E : List String)
    (hf : env.storageFetched = some acls)
    (hnone : dictGet acls "ipRules" = none)
    (hE : expandAllRules ips = .ok E) :
    manage_storage_firewall env "add" ips =
      (.ok [.statusResult env.storagePatchStatus env.storagePatchText],
        [.storageGet,
          .storagePatch (dictSet (dictSet acls "ipRules" (.rules []))
            "ipRules" (.rules (storageAdd [] E)))]) := by
  simp only [manage_storage_firewall, hf, hnone, hE]
  rw [dictGet_dictSet_self acls "ipRules" (AclVal.rules [])]
  rfl

/-- When the fetched `networkAcls` lacks the `ipRules` key (AzFunc.py
lines 95-96), an empty `ipRules` is injected first and then assigned;
no other key is touched (`remove` case). -/
theorem manage_storage_remove_noipkey (env : RemoteEnv) (ips : List String)
    (acls : List (String × AclVal)) (E : List String)
    (hf : env.storageFetched = some acls)
    (hnone : dictGet acls "ipRules" = none)
    (hE : expandAllRules ips = .ok E) :
    manage_storage_firewall env "remove" ips =
      (.ok [.statusResult env.storagePatchStatus env.storagePatchText],
        [.storageGet,
          .storagePatch (dictSet (dictSet acls "ipRules" (.rules []))
            "ipRules" (.rules (storageRemove [] E)))]) := by
  simp only [manage_storage_firewall, hf, hnone, hE]
  rw [dictGet_dictSet_self acls "ipRules" (AclVal.rules [])]
  rfl

/-- C10 (confirmed): for both actions and for every fetched
`networkAcls` state, the written-back object differs from the fetched one
only at the `ipRules` key — every other key, `defaultAction` included, is
looked up unchanged.  This holds whether the fetched object carries an
`ipRules` list (first clause), lacks the key entirely, in which case an
empty list is injected and then assigned (second clause, AzFunc.py lines
95-96), or no `networkAcls` was fetched at all — only in that last case
does `defaultAction` get the `Deny` default (third clause). -/
theorem c10_patch_frame :
    (∀ (env : RemoteEnv) (action : String) (ips : List String)
        (acls : List (String × AclVal)) (entries : List IpEntry) (E : List String),
      env.storageFetched = some acls →
      dictGet acls "ipRules" = some (.rules entries) →
      expandAllRules ips = .ok E →
      (action = "add" ∨ action = "remove") →
      (manage_storage_firewall env action ips).2 =
        [.storageGet, .storagePatch (dictSet acls "ipRules" (.rules
          (if action = "add" then storageAdd entries E else storageRemove entries E)))] ∧
      dictGet (dictSet acls "ipRules" (.rules
          (if action = "add" then storageAdd entries E else storageRemove entries E)))
        "ipRules" = some (.rules
          (if action = "add" then storageAdd entries E else storageRemove entries E)) ∧
      (∀ k, k ≠ "ipRules" →
        dictGet (dictSet acls "ipRules" (.rules
          (if action = "add" then storageAdd entries E else storageRemove entries E))) k =
          dictGet acls k))
  ∧ (∀ (env : RemoteEnv) (action : String) (ips : List String)
        (acls : List (String × AclVal)) (E : List String),
      env.storageFetched = some acls →
      dictGet acls "ipRules" = none →
      expandAllRules ips = .ok E →
      (action = "add" ∨ action = "remove") →
      (manage_storage_firewall env action ips).2 =
        [.storageGet, .storagePatch (dictSet (dictSet acls "ipRules" (.rules []))
          "ipRules" (.rules
            (if action = "add" then storageAdd [] E else storageRemove [] E)))] ∧
      dictGet (dictSet (dictSet acls "ipRules" (.rules [])) "ipRules" (.rules
          (if action = "add" then storageAdd [] E else storageRemove [] E)))
        "ipRules" = some (.rules
          (if action = "add" then storageAdd [] E else storageRemove [] E)) ∧
      (∀ k, k ≠ "ipRules" →
        dictGet (dictSet (dictSet acls "ipRules" (.rules [])) "ipRules" (.rules
          (if action = "add" then storageAdd [] E else storageRemove [] E))) k =
          dictGet acls k))
  ∧ (∀ (env : RemoteEnv) (action : String) (ips : List String) (E : List String),
      env.storageFetched = none →
      expandAllRules ips = .ok E →
      (action = "add" ∨ action = "remove") →
      (manage_storage_firewall env action ips).2 =
        [.storageGet, .storagePatch (dictSet defaultAcls "ipRules" (.rules
          (if action = "add" then storageAdd [] E else storageRemove [] E)))] ∧
      dictGet (dictSet defaultAcls "ipRules" (.rules
          (if action = "add" then storageAdd [] E else storageRemove [] E)))
        "defaultAction" = some (.other "Deny")) := by
  refine ⟨?_, ?_, ?_⟩
  · intro env action ips acls entries E hf hrules hE hact
    rcases hact with rfl | rfl
    · rw [manage_storage_add env ips acls entries E hf hrules hE]
      rw [if_pos rfl]
      exact ⟨rfl, dictGet_dictSet_self acls "ipRules" _,
        fun k hk => dictGet_dictSet_ne acls "ipRules" _ k hk⟩
    · rw [manage_storage_remove env ips acls entries E hf hrules hE]
      rw [if_neg (by decide)]
      exact ⟨rfl, dictGet_dictSet_self acls "ipRules" _,
        fun k hk => dictGet_dictSet_ne acls "ipRules" _ k hk⟩
  · intro env action ips acls E hf hnone hE hact
    rcases hact with rfl | rfl
    · rw [manage_storage_add_noipkey env ips acls E hf hnone hE]
      rw [if_pos rfl]
      refine ⟨rfl, dictGet_dictSet_self _ "ipRules" _, fun k hk => ?_⟩
      rw [dictGet_dictSet_ne _ "ipRules" _ k hk, dictGet_dictSet_ne _ "ipRules" _ k hk]
    · rw [manage_storage_remove_noipkey env ips acls E hf hnone hE]
      rw [if_neg (by decide)]
      refine ⟨rfl, dictGet_dictSet_self _ "ipRules" _, fun k hk => ?_⟩
      rw [dictGet_dictSet_ne _ "ipRules" _ k hk, dictGet_dictSet_ne _ "ipRules" _ k hk]
  · intro env action ips E hf hE hact
    rcases hact with rfl | rfl
    · rw [manage_storage_add_nofetch env ips E hf hE]
      rw [if_pos rfl]
      refine ⟨rfl, ?_⟩
      rw [dictGet_dictSet_ne defaultAcls "ipRules" _ "defaultAction" (by decide)]
      decide
    · rw [manage_storage_remove_nofetch env ips E hf hE]
      rw [if_neg (by decide)]
      refine ⟨rfl, ?_⟩
      rw [dictGet_dictSet_ne defaultAcls "ipRules" _ "defaultAction" (by decide)]
      decide

/-- Witness for C10: an `add` against a fetched object with extra keys
patches only the `ipRules` key, both when the key is present and when it
is absent and must first be injected. -/
theorem c10_patch_frame_witness :
    (manage_storage_firewall storageEnvSample "add" ["1.2.3.4"]).2 =
      [.storageGet, .storagePatch (dictSet aclsSample "ipRules" (.rules
        (if "add" = "add" then storageAdd [] ["1.2.3.4"]
          else storageRemove [] ["1.2.3.4"])))] ∧
    (manage_storage_firewall storageEnvNoRules "add" ["1.2.3.4"]).2 =
      [.storageGet, .storagePatch (dictSet (dictSet aclsNoRules "ipRules" (.rules []))
        "ipRules" (.rules (if "add" = "add" then storageAdd [] ["1.2.3.4"]
          else storageRemove [] ["1.2.3.4"])))] :=
  ⟨(c10_patch_frame.1 storageEnvSample "add" ["1.2.3.4"] aclsSample [] ["1.2.3.4"]
      rfl (by decide) (by decide) (Or.inl rfl)).1,
    (c10_patch_frame.2.1 storageEnvNoRules "add" ["1.2.3.4"] aclsNoRules ["1.2.3.4"]
      rfl (by decide) (by decide) (Or.inl rfl)).1⟩
